import Mathlib

/-!
Verification of the Rainy Days storefront cart core: the cart Store
(cart.js: getCart, saveCart, addToCart, getCartCount, removeFromCart,
setCartQty, clearCart) and the cart projection and totals (app.js:
enrichLines and the subtotal/tax/total computation in render).

JS numbers are embedded as rationals; the result of Number(x) is embedded
as an Option of a rational, none standing for NaN (non-numeric or missing
input). The persisted localStorage slot is embedded at two levels: a raw
blob level (absent, unparsable, or a parsed JSON value) for the
fault-tolerance of getCart, and a well-formed level (a list of cart lines
plus a count of dispatched cart:updated events) for the Store operations.
-/

namespace RainyDays

/-- A persisted cart line: one of the objects `{ id, qty }` that cart.js
stores under the key rainydays_cart_v1. -/
structure CartLine where
  id : String
  qty : ℚ
  deriving DecidableEq, Repr

/-- State of the Store as the operations of cart.js see it: the persisted
cart array (well-formed case) together with the number of cart:updated
events dispatched on the window so far. -/
structure StoreState where
  items : List CartLine
  events : Nat
  deriving DecidableEq, Repr

/-- getCart (cart.js lines 3 to 6) on a well-formed persisted cart: returns
the stored array; reads only, so the state comes back unchanged and no
event is dispatched. The raw read over arbitrary blobs is getCartRaw
below. -/
def getCart (s : StoreState) : List CartLine × StoreState :=
  (s.items, s)

/-- saveCart (cart.js lines 8 to 11): persists the given array with
setItem, then dispatches exactly one cart:updated event. -/
def saveCart (s : StoreState) (items : List CartLine) : StoreState :=
  { items := items, events := s.events + 1 }

/-- Effect of the found branch of addToCart (cart.js line 16): `find`
returns the first line whose id matches, and `found.qty += qty` mutates
that line in place. -/
def bumpQty (productId : String) (qty : ℚ) : List CartLine → List CartLine
  | [] => []
  | l :: rest =>
    if l.id = productId then { l with qty := l.qty + qty } :: rest
    else l :: bumpQty productId qty rest

/-- addToCart (cart.js lines 13 to 19): reads the cart; if a line with the
given id exists, bumps its quantity by qty, otherwise pushes a new line;
saves either way. The qty argument defaults to 1. -/
def addToCart (s : StoreState) (productId : String) (qty : ℚ := 1) : StoreState :=
  let items := (getCart s).1
  if items.any fun i => i.id == productId then
    saveCart s (bumpQty productId qty items)
  else
    saveCart s (items ++ [{ id := productId, qty := qty }])

/-- getCartCount (cart.js lines 21 to 23): reduce over the quantities with
initial value 0; a pure read, no save, no event. -/
def getCartCount (s : StoreState) : ℚ × StoreState :=
  (((getCart s).1).foldl (fun sum i => sum + i.qty) 0, (getCart s).2)

/-- removeFromCart (cart.js lines 25 to 29): keeps the lines whose id
differs from the given one and always saves (hence always notifies). -/
def removeFromCart (s : StoreState) (productId : String) : StoreState :=
  saveCart s (((getCart s).1).filter fun i => !(i.id == productId))

/-- JS `x || d` where x is the result of Number(_): NaN (none) and 0 are
falsy, every other number is truthy. -/
def jsOrNum (x : Option ℚ) (d : ℚ) : ℚ :=
  match x with
  | none => d
  | some q => if q = 0 then d else q

/-- The clamp on line 32 of cart.js: `Math.max(1, Number(qty) || 1)`. The
inner `|| 1` already replaced NaN, so Math.max never sees NaN. -/
def clampQty (input : Option ℚ) : ℚ :=
  max 1 (jsOrNum input 1)

/-- Effect of `row.qty = q` (cart.js line 35) on the first line `find`
returned. -/
def setQtyFirst (productId : String) (q : ℚ) : List CartLine → List CartLine
  | [] => []
  | l :: rest =>
    if l.id = productId then { l with qty := q } :: rest
    else l :: setQtyFirst productId q rest

/-- setCartQty (cart.js lines 31 to 38). The input argument is the result
of Number(qty), none standing for NaN (non-numeric or missing). Saves, and
therefore notifies, only when a row with the given id exists; otherwise
the call changes nothing. -/
def setCartQty (s : StoreState) (productId : String) (input : Option ℚ) : StoreState :=
  let q := clampQty input
  let items := (getCart s).1
  if items.any fun i => i.id == productId then
    saveCart s (setQtyFirst productId q items)
  else s

/-- clearCart (cart.js lines 40 to 42): saveCart([]). -/
def clearCart (s : StoreState) : StoreState :=
  saveCart s []

/-- One mutating call into the Store API. -/
inductive StoreOp where
  | add (productId : String) (qty : ℚ)
  | setQ (productId : String) (input : Option ℚ)
  | remove (productId : String)
  | clear
  deriving DecidableEq, Repr

/-- Dispatch of one Store call. -/
def applyOp (s : StoreState) : StoreOp → StoreState
  | .add P q => addToCart s P q
  | .setQ P input => setCartQty s P input
  | .remove P => removeFromCart s P
  | .clear => clearCart s

/-- A sequence of Store calls, run in order. -/
def applyOps (s : StoreState) (ops : List StoreOp) : StoreState :=
  ops.foldl applyOp s

/-- Quantity discipline of the call sites in this repository: every
addToCart call passes a quantity of at least 1 (app.js always passes 1);
the other operations clamp or delete on their own. -/
def qtyOk : StoreOp → Bool
  | .add _ q => decide (1 ≤ q)
  | _ => true

/-- The cart invariant of the data model: every line quantity at least 1,
at most one line per distinct productId. -/
def CartInv (items : List CartLine) : Prop :=
  (∀ l ∈ items, 1 ≤ l.qty) ∧ (items.map CartLine.id).Nodup

instance (items : List CartLine) : Decidable (CartInv items) := by
  unfold CartInv
  infer_instance

/-- Normalized product shape (normalizeProduct in app.js), restricted to
the fields the cart page reads. -/
structure Product where
  id : String
  title : String
  price : ℚ
  imageUrl : String
  deriving DecidableEq, Repr

/-- The objects enrichLines builds (app.js lines 479 to 494). -/
structure EnrichedLine where
  id : String
  qty : ℚ
  title : String
  imageUrl : String
  price : ℚ
  lineTotal : ℚ
  deriving DecidableEq, Repr

/-- Body of the arrow function enrichLines maps over the cart (app.js
lines 481 to 492): look the product up by id in the catalog Map; null when
the product disappeared from the catalog, otherwise the enriched line with
the price taken from the current catalog snapshot and
lineTotal = price * qty. -/
def enrichLine (byId : String → Option Product) (l : CartLine) : Option EnrichedLine :=
  match byId l.id with
  | none => none
  | some p =>
    some { id := l.id, qty := l.qty, title := p.title, imageUrl := p.imageUrl,
           price := p.price, lineTotal := p.price * l.qty }

/-- enrichLines (app.js lines 479 to 494): map each cart line through the
byId lookup, then filter(Boolean). The map-then-drop-nulls pipeline is
List.filterMap. -/
def enrichLines (items : List CartLine) (byId : String → Option Product) :
    List EnrichedLine :=
  items.filterMap (enrichLine byId)

/-- subtotal in render (app.js line 544): reduce over lineTotal with
initial value 0. -/
def renderSubtotal (lines : List EnrichedLine) : ℚ :=
  lines.foldl (fun s l => s + l.lineTotal) 0

/-- tax in render (app.js line 545): the fixed policy value 0. -/
def renderTax : ℚ := 0

/-- total in render (app.js line 546). -/
def renderTotal (lines : List EnrichedLine) : ℚ :=
  renderSubtotal lines + renderTax

/-- A value that is a whole number of cents: rendering it with
minimumFractionDigits 2 shows exactly two fractional digits without any
rounding. -/
def centQuantized (q : ℚ) : Prop := (q * 100).den = 1

/-- JSON values as JSON.parse returns them (JSON numbers are finite,
embedded as rationals; objects are ordered field lists). -/
inductive Json where
  | null
  | bool (b : Bool)
  | num (q : ℚ)
  | str (s : String)
  | arr (elements : List Json)
  | obj (fields : List (String × Json))
  deriving Repr

/-- JS truthiness of a parsed JSON value: null, false, 0 and the empty
string are falsy; every array and object is truthy. -/
def Json.truthy : Json → Bool
  | .null => false
  | .bool b => b
  | .num q => !(q == 0)
  | .str s => !(s == "")
  | .arr _ => true
  | .obj _ => true

/-- The persisted blob under the cart key as JSON.parse sees it: absent
(getItem returns null, which JSON.parse coerces to the text null and
parses to the JSON null), a text JSON.parse throws on, or a text parsing
to a value. -/
inductive StoredBlob where
  | absent
  | unparsable
  | parsed (v : Json)
  deriving Repr

/-- getCart (cart.js lines 3 to 6) over an arbitrary persisted blob:
`try { return JSON.parse(localStorage.getItem(KEY)) || []; } catch { return []; }`. -/
def getCartRaw (b : StoredBlob) : Json :=
  let parsed : Except Unit Json :=
    match b with
    | .absent => .ok .null
    | .unparsable => .error ()
    | .parsed v => .ok v
  match parsed with
  | .error _ => .arr []
  | .ok v => if v.truthy then v else .arr []

/-- JSON encoding of one cart line, as JSON.stringify writes it. -/
def encodeLine (l : CartLine) : Json :=
  .obj [("id", .str l.id), ("qty", .num l.qty)]

/-- A JSON value that is one well-formed cart line: an object carrying a
string id and a numeric qty. -/
def isLineJson : Json → Bool
  | .obj fields =>
    (match fields.lookup "id" with
     | some (.str _) => true
     | _ => false)
    && (match fields.lookup "qty" with
        | some (.num _) => true
        | _ => false)
  | _ => false

/-- A parsed blob that is a well-formed sequence of cart lines. -/
def isWellFormedCart : Json → Bool
  | .arr elements => elements.all isLineJson
  | _ => false

/-- saveCart (cart.js lines 8 to 11) at the blob level: afterwards the
slot holds the JSON array JSON.stringify produced. -/
def saveCartBlob (items : List CartLine) : StoredBlob :=
  .parsed (.arr (items.map encodeLine))

/-- clearCart (cart.js lines 40 to 42) at the blob level: saveCart([]),
whatever the slot held before. -/
def clearCartBlob (_b : StoredBlob) : StoredBlob :=
  saveCartBlob []

end RainyDays
namespace RainyDays

theorem any_id_beq_false {items : List CartLine} {P : String} :
    (items.any fun i => i.id == P) = false ↔ ∀ i ∈ items, i.id ≠ P := by
  simp [List.any_eq_true]

theorem any_id_beq_true {items : List CartLine} {P : String} :
    (items.any fun i => i.id == P) = true ↔ ∃ i ∈ items, i.id = P := by
  simp [List.any_eq_true]

theorem bumpQty_map_id (P : String) (q : ℚ) :
    ∀ items : List CartLine, (bumpQty P q items).map CartLine.id = items.map CartLine.id := by
  intro items
  induction items with
  | nil => rfl
  | cons l rest ih =>
    by_cases h : l.id = P
    · simp [bumpQty, h]
    · simp [bumpQty, h, ih]

theorem bumpQty_qty_ge (P : String) (q : ℚ) (hq : 1 ≤ q) :
    ∀ items : List CartLine, (∀ l ∈ items, 1 ≤ l.qty) →
      ∀ l ∈ bumpQty P q items, 1 ≤ l.qty := by
  intro items
  induction items with
  | nil => intro _ l hl; simp [bumpQty] at hl
  | cons a rest ih =>
    intro h l hl
    rw [bumpQty] at hl
    by_cases hid : a.id = P
    · rw [if_pos hid] at hl
      rcases List.mem_cons.mp hl with rfl | hmem
      · have ha : 1 ≤ a.qty := h a (List.mem_cons_self a rest)
        show 1 ≤ a.qty + q
        linarith
      · exact h l (List.mem_cons_of_mem a hmem)
    · rw [if_neg hid] at hl
      rcases List.mem_cons.mp hl with rfl | hmem
      · exact h l (List.mem_cons_self l rest)
      · exact ih (fun x hx => h x (List.mem_cons_of_mem a hx)) l hmem

theorem setQtyFirst_map_id (P : String) (q : ℚ) :
    ∀ items : List CartLine, (setQtyFirst P q items).map CartLine.id = items.map CartLine.id := by
  intro items
  induction items with
  | nil => rfl
  | cons l rest ih =>
    by_cases h : l.id = P
    · simp [setQtyFirst, h]
    · simp [setQtyFirst, h, ih]

theorem setQtyFirst_qty_ge (P : String) (q : ℚ) (hq : 1 ≤ q) :
    ∀ items : List CartLine, (∀ l ∈ items, 1 ≤ l.qty) →
      ∀ l ∈ setQtyFirst P q items, 1 ≤ l.qty := by
  intro items
  induction items with
  | nil => intro _ l hl; simp [setQtyFirst] at hl
  | cons a rest ih =>
    intro h l hl
    rw [setQtyFirst] at hl
    by_cases hid : a.id = P
    · rw [if_pos hid] at hl
      rcases List.mem_cons.mp hl with rfl | hmem
      · exact hq
      · exact h l (List.mem_cons_of_mem a hmem)
    · rw [if_neg hid] at hl
      rcases List.mem_cons.mp hl with rfl | hmem
      · exact h l (List.mem_cons_self l rest)
      · exact ih (fun x hx => h x (List.mem_cons_of_mem a hx)) l hmem

theorem clampQty_ge_one (input : Option ℚ) : 1 ≤ clampQty input :=
  le_max_left 1 (jsOrNum input 1)

theorem cartInv_applyOp (s : StoreState) (op : StoreOp)
    (hok : qtyOk op = true) (hinv : CartInv s.items) :
    CartInv (applyOp s op).items := by
  obtain ⟨hqty, hnd⟩ := hinv
  cases op with
  | add P q =>
    have hq : 1 ≤ q := of_decide_eq_true hok
    show CartInv (addToCart s P q).items
    rw [addToCart]
    cases hany : (s.items.any fun i => i.id == P) with
    | true =>
      simp only [getCart, hany, if_true, saveCart]
      exact ⟨bumpQty_qty_ge P q hq s.items hqty, (bumpQty_map_id P q s.items).symm ▸ hnd⟩
    | false =>
      simp only [getCart, hany, Bool.false_eq_true, if_false, saveCart]
      constructor
      · intro l hl
        rcases List.mem_append.mp hl with hmem | hmem
        · exact hqty l hmem
        · rcases List.mem_singleton.mp hmem with rfl
          exact hq
      · rw [List.map_append]
        rw [List.nodup_append]
        refine ⟨hnd, List.nodup_singleton P, ?_⟩
        intro x hx hx1
        rcases List.mem_map.mp hx with ⟨i, hi, rfl⟩
        rcases List.mem_singleton.mp hx1
        exact (any_id_beq_false.mp hany) i hi rfl
  | setQ P input =>
    show CartInv (setCartQty s P input).items
    rw [setCartQty]
    cases hany : (s.items.any fun i => i.id == P) with
    | true =>
      simp only [getCart, hany, if_true, saveCart]
      refine ⟨setQtyFirst_qty_ge P (clampQty input) (clampQty_ge_one input) s.items hqty, ?_⟩
      exact (setQtyFirst_map_id P (clampQty input) s.items).symm ▸ hnd
    | false =>
      simp only [getCart, hany, Bool.false_eq_true, if_false]
      exact ⟨hqty, hnd⟩
  | remove P =>
    show CartInv (removeFromCart s P).items
    rw [removeFromCart]
    simp only [getCart, saveCart]
    constructor
    · intro l hl
      exact hqty l (List.mem_of_mem_filter hl)
    · exact List.Nodup.sublist (List.Sublist.map CartLine.id (List.filter_sublist s.items)) hnd
  | clear =>
    show CartInv (clearCart s).items
    exact ⟨by intro l hl; simp [clearCart, saveCart] at hl, by simp [clearCart, saveCart]⟩

theorem cartInv_applyOps (ops : List StoreOp) :
    ∀ s : StoreState, (∀ op ∈ ops, qtyOk op = true) → CartInv s.items →
      CartInv (applyOps s ops).items := by
  induction ops with
  | nil => intro s _ hinv; exact hinv
  | cons op rest ih =>
    intro s hok hinv
    rw [applyOps, List.foldl_cons]
    exact ih (applyOp s op)
      (fun x hx => hok x (List.mem_cons_of_mem op hx))
      (cartInv_applyOp s op (hok op (List.mem_cons_self op rest)) hinv)

end RainyDays
namespace RainyDays

/-- Claim C1 as stated fails on the code: from the empty cart, the single
Store call addToCart with quantity 0 persists a line of quantity 0, below
the floor of 1 (addToCart does not clamp its quantity argument). -/
theorem addToCart_zero_qty_breaks_floor :
    (applyOps { items := [], events := 0 } [StoreOp.add "A" 0]).items
      = [{ id := "A", qty := 0 }]
    ∧ ¬ (∀ l ∈ (applyOps { items := [], events := 0 } [StoreOp.add "A" 0]).items,
          1 ≤ l.qty) := by
  constructor
  · rfl
  · decide

/-- Claim C1, amended: starting from the empty cart, after any sequence of
Store operations in which every addToCart call passes a quantity of at
least 1 (as every call site in this repository does), every persisted line
has quantity at least 1 and there is at most one line per distinct
productId. -/
theorem cart_invariant_preserved (ops : List StoreOp)
    (hok : ∀ op ∈ ops, qtyOk op = true) :
    CartInv (applyOps { items := [], events := 0 } ops).items :=
  cartInv_applyOps ops { items := [], events := 0 } hok (by decide)

/-- Witness for cart_invariant_preserved at a concrete operation sequence. -/
theorem cart_invariant_preserved_witness :
    CartInv (applyOps { items := [], events := 0 }
      [StoreOp.add "A" 2, StoreOp.add "B" 1, StoreOp.add "A" 3,
       StoreOp.setQ "A" (some 0), StoreOp.remove "B", StoreOp.clear,
       StoreOp.add "C" 1]).items :=
  cart_invariant_preserved
    [StoreOp.add "A" 2, StoreOp.add "B" 1, StoreOp.add "A" 3,
     StoreOp.setQ "A" (some 0), StoreOp.remove "B", StoreOp.clear,
     StoreOp.add "C" 1] (by decide)

theorem bumpQty_append_fresh (P : String) (a b : ℚ) :
    ∀ xs : List CartLine, (∀ i ∈ xs, i.id ≠ P) →
      bumpQty P b (xs ++ [{ id := P, qty := a }])
        = xs ++ [{ id := P, qty := a + b }] := by
  intro xs
  induction xs with
  | nil => intro _; simp [bumpQty]
  | cons x rest ih =>
    intro h
    have hx : x.id ≠ P := h x (List.mem_cons_self x rest)
    rw [List.cons_append, bumpQty, if_neg hx, List.cons_append,
      ih (fun i hi => h i (List.mem_cons_of_mem x hi))]

theorem filter_beq_append_fresh (P : String) (c : ℚ) :
    ∀ xs : List CartLine, (∀ i ∈ xs, i.id ≠ P) →
      List.filter (fun i => i.id == P) (xs ++ [({ id := P, qty := c } : CartLine)])
        = [({ id := P, qty := c } : CartLine)] := by
  intro xs h
  rw [List.filter_append]
  have h1 : xs.filter (fun i => i.id == P) = [] := by
    rw [List.filter_eq_nil_iff]
    intro a ha
    simpa using h a ha
  rw [h1]
  simp

/-- Claim C2: on a cart with no line for P, addToCart(P, a) appends a new
line with quantity a; a following addToCart(P, b) leaves exactly one line
for P, with quantity a + b, not two separate lines; and the quantity
argument defaults to 1 when omitted. -/
theorem addToCart_merge_accumulation (s : StoreState) (P : String) (a b : ℚ)
    (habs : ∀ i ∈ s.items, i.id ≠ P) :
    ((addToCart s P a).items = s.items ++ [{ id := P, qty := a }])
    ∧ ((addToCart (addToCart s P a) P b).items.filter (fun i => i.id == P)
        = [{ id := P, qty := a + b }])
    ∧ addToCart s P = addToCart s P 1 := by
  have hany : (s.items.any fun i => i.id == P) = false := any_id_beq_false.mpr habs
  have h1 : (addToCart s P a).items = s.items ++ [{ id := P, qty := a }] := by
    rw [addToCart]
    simp only [getCart, hany, Bool.false_eq_true, if_false, saveCart]
  refine ⟨h1, ?_, rfl⟩
  have hany2 : ((addToCart s P a).items.any fun i => i.id == P) = true := by
    rw [h1]
    exact any_id_beq_true.mpr ⟨{ id := P, qty := a }, by simp, rfl⟩
  rw [addToCart]
  simp only [getCart, hany2, if_true, saveCart]
  rw [h1, bumpQty_append_fresh P a b s.items habs]
  exact filter_beq_append_fresh P (a + b) s.items habs

/-- Witness for addToCart_merge_accumulation on the empty cart with
quantities 2 and 3. -/
theorem addToCart_merge_witness :
    ((addToCart { items := [], events := 0 } "A" 2).items
        = ([] : List CartLine) ++ [{ id := "A", qty := 2 }])
    ∧ ((addToCart (addToCart { items := [], events := 0 } "A" 2) "A" 3).items.filter
          (fun i => i.id == "A") = [{ id := "A", qty := 2 + 3 }])
    ∧ addToCart { items := [], events := 0 } "A"
        = addToCart { items := [], events := 0 } "A" 1 :=
  addToCart_merge_accumulation { items := [], events := 0 } "A" 2 3 (by decide)

end RainyDays
namespace RainyDays

theorem setQtyFirst_sets (P : String) (q : ℚ) :
    ∀ items : List CartLine, (items.map CartLine.id).Nodup →
      ∀ l ∈ setQtyFirst P q items, l.id = P → l.qty = q := by
  intro items
  induction items with
  | nil => intro _ l hl; simp [setQtyFirst] at hl
  | cons a rest ih =>
    intro hnd l hl hlP
    rw [List.map_cons, List.nodup_cons] at hnd
    rw [setQtyFirst] at hl
    by_cases hid : a.id = P
    · rw [if_pos hid] at hl
      rcases List.mem_cons.mp hl with rfl | hmem
      · rfl
      · exfalso
        apply hnd.1
        rw [hid, ← hlP]
        exact List.mem_map_of_mem CartLine.id hmem
    · rw [if_neg hid] at hl
      rcases List.mem_cons.mp hl with rfl | hmem
      · exact absurd hlP hid
      · exact ih hnd.2 l hmem hlP

/-- Claim C3: setCartQty clamps its input to a floor of 1 (a NaN-producing
or missing input, embedded as none, and any input at most 0 are coerced to
exactly 1); when a line with the given id exists, its quantity is
overwritten with the clamped value; when no such line exists, the call is
a no-op: it creates no line, performs no write and dispatches no event
(the state is returned unchanged). -/
theorem setCartQty_contract (s : StoreState) (P : String) (input : Option ℚ)
    (hnd : (s.items.map CartLine.id).Nodup) :
    1 ≤ clampQty input
    ∧ ((input = none ∨ ∃ q, input = some q ∧ q ≤ 0) → clampQty input = 1)
    ∧ ((∃ i ∈ s.items, i.id = P) →
        ∀ l ∈ (setCartQty s P input).items, l.id = P → l.qty = clampQty input)
    ∧ ((∀ i ∈ s.items, i.id ≠ P) → setCartQty s P input = s) := by
  refine ⟨clampQty_ge_one input, ?_, ?_, ?_⟩
  · rintro (rfl | ⟨q, rfl, hq⟩)
    · simp [clampQty, jsOrNum]
    · by_cases h0 : q = 0
      · simp [clampQty, jsOrNum, h0]
      · rw [clampQty, jsOrNum, if_neg h0]
        exact max_eq_left (by linarith)
  · rintro ⟨i, hi, hiP⟩
    have hany : (s.items.any fun j => j.id == P) = true := any_id_beq_true.mpr ⟨i, hi, hiP⟩
    rw [setCartQty]
    simp only [getCart, hany, if_true, saveCart]
    exact setQtyFirst_sets P (clampQty input) s.items hnd
  · intro habs
    have hany : (s.items.any fun j => j.id == P) = false := any_id_beq_false.mpr habs
    rw [setCartQty]
    simp only [getCart, hany, Bool.false_eq_true, if_false]

/-- Witness for setCartQty_contract on a one-line cart with the negative
input -3: the line is set to exactly 1. -/
theorem setCartQty_contract_witness :
    1 ≤ clampQty (some (-3))
    ∧ ((some (-3) = (none : Option ℚ) ∨ ∃ q, (some (-3) : Option ℚ) = some q ∧ q ≤ 0) →
        clampQty (some (-3)) = 1)
    ∧ ((∃ i ∈ ([{ id := "A", qty := 5 }] : List CartLine), i.id = "A") →
        ∀ l ∈ (setCartQty { items := [{ id := "A", qty := 5 }], events := 0 } "A"
            (some (-3))).items, l.id = "A" → l.qty = clampQty (some (-3)))
    ∧ ((∀ i ∈ ([{ id := "A", qty := 5 }] : List CartLine), i.id ≠ "A") →
        setCartQty { items := [{ id := "A", qty := 5 }], events := 0 } "A" (some (-3))
          = { items := [{ id := "A", qty := 5 }], events := 0 }) :=
  setCartQty_contract { items := [{ id := "A", qty := 5 }], events := 0 } "A"
    (some (-3)) (by decide)

/-- Claim C10: for a finite numeric input q above 1, setCartQty stores q
exactly as given, fractional or not: the clamp returns q itself, and the
line with the given id ends with quantity exactly q. -/
theorem setCartQty_fractional_passthrough (s : StoreState) (P : String) (q : ℚ)
    (hq : 1 < q) (hnd : (s.items.map CartLine.id).Nodup) :
    clampQty (some q) = q
    ∧ ∀ l ∈ (setCartQty s P (some q)).items, l.id = P → l.qty = q := by
  have hclamp : clampQty (some q) = q := by
    rw [clampQty, jsOrNum, if_neg (ne_of_gt (lt_trans zero_lt_one hq))]
    exact max_eq_right (le_of_lt hq)
  refine ⟨hclamp, ?_⟩
  intro l hl hlP
  rw [setCartQty] at hl
  cases hany : (s.items.any fun i => i.id == P) with
  | true =>
    simp only [getCart, hany, if_true, saveCart] at hl
    exact hclamp ▸ setQtyFirst_sets P (clampQty (some q)) s.items hnd l hl hlP
  | false =>
    simp only [getCart, hany, Bool.false_eq_true, if_false] at hl
    exact absurd hlP (any_id_beq_false.mp hany l hl)

/-- Witness for setCartQty_fractional_passthrough at the fractional input
1.5 on a one-line cart: the stored quantity is exactly 1.5. -/
theorem setCartQty_fractional_witness :
    clampQty (some (1.5 : ℚ)) = 1.5
    ∧ ∀ l ∈ (setCartQty { items := [{ id := "A", qty := 2 }], events := 0 } "A"
        (some (1.5 : ℚ))).items, l.id = "A" → l.qty = 1.5 :=
  setCartQty_fractional_passthrough { items := [{ id := "A", qty := 2 }], events := 0 }
    "A" 1.5 (by norm_num) (by decide)

/-- Claim C8: removal is total: after removeFromCart(P) no line with id P
remains; removing again is a no-op on the lines (no error); and
removeFromCart always writes and dispatches exactly one notification. -/
theorem removeFromCart_total (s : StoreState) (P : String) :
    (∀ l ∈ (removeFromCart s P).items, l.id ≠ P)
    ∧ (removeFromCart (removeFromCart s P) P).items = (removeFromCart s P).items
    ∧ (removeFromCart s P).events = s.events + 1 := by
  refine ⟨?_, ?_, rfl⟩
  · intro l hl
    simp only [removeFromCart, getCart, saveCart] at hl
    simpa using (List.mem_filter.mp hl).2
  · simp only [removeFromCart, getCart, saveCart, List.filter_filter, Bool.and_self]

/-- Claim C7: every mutating Store call (addToCart, a setCartQty that finds
its line, removeFromCart, clearCart) dispatches exactly one cart:updated
event after persisting, and the non-mutating reads getCart and
getCartCount leave the state, events included, untouched. -/
theorem notification_iff_mutation (s : StoreState) (P : String) (q : ℚ) (input : Option ℚ) :
    (addToCart s P q).events = s.events + 1
    ∧ (setCartQty s P input).events
        = (if s.items.any (fun i => i.id == P) then s.events + 1 else s.events)
    ∧ (removeFromCart s P).events = s.events + 1
    ∧ (clearCart s).events = s.events + 1
    ∧ (getCart s).2 = s
    ∧ (getCartCount s).2 = s := by
  refine ⟨?_, ?_, rfl, rfl, rfl, rfl⟩
  · rw [addToCart]
    cases hany : (s.items.any fun i => i.id == P) <;>
      simp [getCart, saveCart, hany]
  · rw [setCartQty]
    cases hany : (s.items.any fun i => i.id == P) <;>
      simp [getCart, saveCart, hany]

end RainyDays
namespace RainyDays

theorem enrichLine_none {byId : String → Option Product} {l : CartLine}
    (h : byId l.id = none) : enrichLine byId l = none := by
  rw [enrichLine, h]

theorem enrichLine_some {byId : String → Option Product} {l : CartLine} {p : Product}
    (h : byId l.id = some p) :
    enrichLine byId l
      = some { id := l.id, qty := l.qty, title := p.title, imageUrl := p.imageUrl,
               price := p.price, lineTotal := p.price * l.qty } := by
  rw [enrichLine, h]

theorem enrichLines_map_id (byId : String → Option Product) :
    ∀ items : List CartLine,
      (enrichLines items byId).map EnrichedLine.id
        = (items.filter fun l => (byId l.id).isSome).map CartLine.id := by
  intro items
  induction items with
  | nil => rfl
  | cons l rest ih =>
    rw [enrichLines] at ih ⊢
    rw [List.filterMap_cons]
    cases h : byId l.id with
    | none =>
      rw [enrichLine_none h]
      rw [List.filter_cons]
      simp only [h, Option.isSome_none, Bool.false_eq_true, if_false]
      exact ih
    | some p =>
      rw [enrichLine_some h]
      rw [List.filter_cons]
      simp only [h, Option.isSome_some, if_true, List.map_cons]
      rw [ih]

theorem mem_enrichLines {items : List CartLine} {byId : String → Option Product}
    {v : EnrichedLine} :
    v ∈ enrichLines items byId ↔ ∃ l ∈ items, enrichLine byId l = some v := by
  rw [enrichLines]
  simp [List.mem_filterMap]

end RainyDays
namespace RainyDays

/-- Claim C5: the projection emits, in the cart line order, exactly one
enriched line per cart line whose productId the catalog resolves, with the
unit price taken from the catalog snapshot and lineTotal = price * qty;
lines absent from the catalog emit nothing; a setCartQty call does not
reorder the lines; and on the cart A qty 2, B qty 1 with a catalog
containing only A at price 10, the projection is exactly one item for A
with lineTotal 20. -/
theorem projection_characterization (items : List CartLine)
    (byId : String → Option Product) (s : StoreState) (P : String) (input : Option ℚ) :
    ((enrichLines items byId).map EnrichedLine.id
        = (items.filter fun l => (byId l.id).isSome).map CartLine.id)
    ∧ (∀ v ∈ enrichLines items byId, ∃ l ∈ items, ∃ p, byId l.id = some p
        ∧ v = { id := l.id, qty := l.qty, title := p.title, imageUrl := p.imageUrl,
                price := p.price, lineTotal := p.price * l.qty })
    ∧ ((setCartQty s P input).items.map CartLine.id = s.items.map CartLine.id)
    ∧ (enrichLines [{ id := "A", qty := 2 }, { id := "B", qty := 1 }]
          (fun i => if i = "A"
            then some { id := "A", title := "Jacket", price := 10, imageUrl := "a.png" }
            else none)
        = [{ id := "A", qty := 2, title := "Jacket", imageUrl := "a.png",
             price := 10, lineTotal := 20 }]) := by
  refine ⟨enrichLines_map_id byId items, ?_, ?_, ?_⟩
  · intro v hv
    obtain ⟨l, hl, hf⟩ := mem_enrichLines.mp hv
    cases h : byId l.id with
    | none => rw [enrichLine_none h] at hf; cases hf
    | some p =>
      rw [enrichLine_some h] at hf
      exact ⟨l, hl, p, h, (Option.some.inj hf).symm⟩
  · rw [setCartQty]
    cases hany : (s.items.any fun i => i.id == P) with
    | true =>
      simp only [getCart, hany, if_true, saveCart]
      exact setQtyFirst_map_id P (clampQty input) s.items
    | false =>
      simp only [getCart, hany, Bool.false_eq_true, if_false]
  · simp [enrichLines, enrichLine, List.filterMap_cons]
    norm_num

theorem foldl_add_lineTotal :
    ∀ (lines : List EnrichedLine) (a : ℚ),
      lines.foldl (fun s l => s + l.lineTotal) a
        = a + (lines.map EnrichedLine.lineTotal).sum := by
  intro lines
  induction lines with
  | nil => intro a; simp
  | cons l rest ih =>
    intro a
    rw [List.foldl_cons, ih, List.map_cons, List.sum_cons]
    ring

/-- Two enriched lines whose line totals are 19.98 and 5.00, the concrete
input of the aggregate example. -/
def exampleItems : List EnrichedLine :=
  [{ id := "p1", qty := 2, title := "t1", imageUrl := "", price := 9.99, lineTotal := 19.98 },
   { id := "p2", qty := 1, title := "t2", imageUrl := "", price := 5, lineTotal := 5 }]

/-- Claim C6: the rendered subtotal is the sum of the line totals, the tax
is exactly 0, and the total is subtotal + tax; on line totals 19.98 and
5.00 the subtotal and total are both 24.98, and all three values are whole
numbers of cents, so currency formatting shows them with exactly two
fractional digits. -/
theorem aggregate_correctness :
    (∀ lines : List EnrichedLine,
        renderSubtotal lines = (lines.map EnrichedLine.lineTotal).sum)
    ∧ renderTax = 0
    ∧ (∀ lines : List EnrichedLine,
        renderTotal lines = renderSubtotal lines + renderTax)
    ∧ renderSubtotal exampleItems = 24.98
    ∧ renderTotal exampleItems = 24.98
    ∧ centQuantized (renderSubtotal exampleItems)
    ∧ centQuantized renderTax
    ∧ centQuantized (renderTotal exampleItems) := by
  have hsub : ∀ lines : List EnrichedLine,
      renderSubtotal lines = (lines.map EnrichedLine.lineTotal).sum := by
    intro lines
    rw [renderSubtotal, foldl_add_lineTotal lines 0, zero_add]
  have hex : renderSubtotal exampleItems = 24.98 := by
    rw [hsub]
    norm_num [exampleItems]
  have htot : renderTotal exampleItems = 24.98 := by
    rw [renderTotal, hex, renderTax, add_zero]
  refine ⟨hsub, rfl, fun _ => rfl, hex, htot, ?_, ?_, ?_⟩
  · rw [centQuantized, hex]
    norm_num
  · rw [centQuantized, renderTax]
    norm_num
  · rw [centQuantized, htot]
    norm_num

/-- Claim C4 as stated fails on the code: a persisted blob that parses to
the JSON object with no fields is not a well-formed sequence of lines, yet
getCart returns it unchanged (every object is truthy), not the empty
cart. -/
theorem getCart_truthy_nonarray_counterexample :
    isWellFormedCart (Json.obj []) = false
    ∧ getCartRaw (StoredBlob.parsed (Json.obj [])) = Json.obj []
    ∧ Json.obj [] ≠ Json.arr [] :=
  ⟨rfl, rfl, fun h => Json.noConfusion h⟩

/-- Claim C4, amended: getCart fails closed on an absent blob, an
unparsable blob, and a blob parsing to a falsy JSON value (null, false, 0
or the empty string), returning the empty cart and signaling no error; a
blob parsing to a truthy value is returned as parsed, whether or not it is
a well-formed sequence of lines. -/
theorem getCart_fails_closed (v : Json) :
    getCartRaw StoredBlob.absent = Json.arr []
    ∧ getCartRaw StoredBlob.unparsable = Json.arr []
    ∧ (v.truthy = false → getCartRaw (StoredBlob.parsed v) = Json.arr [])
    ∧ (v.truthy = true → getCartRaw (StoredBlob.parsed v) = v) := by
  refine ⟨rfl, rfl, ?_, ?_⟩
  · intro h
    simp [getCartRaw, h]
  · intro h
    simp [getCartRaw, h]

/-- Claim C9: clearCart writes the empty array, so a getCart right after
yields the empty sequence whatever the slot held before (absent, corrupt,
or any parsed value); at the typed level the cleared Store likewise holds
no lines. -/
theorem clear_then_read_empty (b : StoredBlob) (s : StoreState) :
    getCartRaw (clearCartBlob b) = Json.arr []
    ∧ (getCart (clearCart s)).1 = [] :=
  ⟨rfl, rfl⟩

end RainyDays
